import Mathlib

set_option linter.unusedVariables false

/-!
Shallow embedding of the Handsontable `HeaderTooltips` plugin
(`src/plugins/headerTooltips/headerTooltips.js`) and proofs about it.

The plugin attaches a `title` (hover-text) attribute to row/column header
cells.  We embed:
  * the settings value (`boolean | {rows, columns, onlyTrimmed}`) and its
    normalisation `parseSettings` (source lines 90-98);
  * the per-header decision logic `onAfterGetHeader` (lines 138-162);
  * the cleanup traversal `clearTitleAttributes` (lines 105-129), over an
    explicit model of the three header surfaces (main table head, top
    overlay clone, optional top-left corner overlay clone);
  * the lifecycle operations `disablePlugin` (lines 77-83) and `destroy`
    (lines 167-171).

JavaScript exceptions (`TypeError` on dereferencing `undefined`) are
modelled by `Option`: a function returns `none` exactly when the source
would throw.
-/

namespace HeaderTooltips

/-- Truthiness of an optional boolean JS property: an absent key reads as
`undefined`, which is falsy. -/
def truthy (b : Option Bool) : Bool := b.getD false

/-- A structured settings object `{rows, columns, onlyTrimmed}`; `none`
models an absent key (no backfilling of defaults happens anywhere). -/
structure ObjSettings where
  rows : Option Bool
  columns : Option Bool
  onlyTrimmed : Option Bool
deriving DecidableEq

/-- The dynamic type of `this.settings`: either a raw boolean (the
shorthand form) or a structured object. -/
inductive HTSettings where
  | bool (b : Bool)
  | obj (o : ObjSettings)
deriving DecidableEq

/-- `parseSettings` (source lines 90-98): `typeof this.settings ===
'boolean'` replaces the value by the default structured record
`{rows: true, columns: true, onlyTrimmed: false}`; anything else is left
untouched. -/
def parseSettings : HTSettings → HTSettings
  | .bool _ => .obj ⟨some true, some true, some false⟩
  | .obj o => .obj o

/-- The inner `<span>` label node of a header cell: its text content and
the value `outerWidth(innerSpan)` would measure (source line 152).
`offsetWidth` is a non-negative integer, hence `Nat`. -/
structure Span where
  textContent : String
  outerWidth : Nat
deriving DecidableEq

/-- A header `TH` element: its inner label span, its structural
classification (`TH.parentNode.parentNode.nodeName === 'THEAD'`, source
line 140), the width `outerWidth(TH)` WOULD measure (the source keeps that
call commented out on line 144), and its `title` attribute (`none` =
attribute absent). -/
structure TH where
  innerSpan : Span
  isColHeader : Bool
  outerWidth : Nat
  title : Option String
deriving DecidableEq

/-- `onAfterGetHeader(index, TH)` (source lines 138-162).  The `index`
argument is unused by the source body; it is kept for signature fidelity.
The settings are the structured form, which `enablePlugin` guarantees at
hook time via `parseSettings`. -/
def onAfterGetHeader (index : Nat) (settings : ObjSettings) (th : TH) : TH :=
  let innerSpan := th.innerSpan
  let isColHeader := th.isColHeader
  if (isColHeader && truthy settings.columns) || (!isColHeader && truthy settings.rows) then
    if truthy settings.onlyTrimmed then
      -- line 145: `const columnWidth = 50;` — the live measurement
      -- `outerWidth(TH)` is commented out (kept for issue 6708 compat).
      let columnWidth := 50
      let textWidth := innerSpan.outerWidth
      if textWidth ≥ columnWidth ∧ textWidth ≠ 0 then
        { th with title := some innerSpan.textContent }
      else
        th
    else
      { th with title := some innerSpan.textContent }
  else
    th

/-- Modelled from the claim's words (C9): the same decision logic but with
the `onlyTrimmed` guard reduced to the single comparison `textWidth ≥ 50`,
dropping the `textWidth ≠ 0` conjunct. -/
def onAfterGetHeaderSpecGuard (index : Nat) (settings : ObjSettings) (th : TH) : TH :=
  let innerSpan := th.innerSpan
  let isColHeader := th.isColHeader
  if (isColHeader && truthy settings.columns) || (!isColHeader && truthy settings.rows) then
    if truthy settings.onlyTrimmed then
      let columnWidth := 50
      let textWidth := innerSpan.outerWidth
      if textWidth ≥ columnWidth then
        { th with title := some innerSpan.textContent }
      else
        th
    else
      { th with title := some innerSpan.textContent }
  else
    th

/-- C4: `parseSettings` maps any boolean input, regardless of its value, to
`{rows: true, columns: true, onlyTrimmed: false}`, and leaves any
non-boolean (structured) input completely unchanged — absent keys included,
since the object is returned as-is with no merging. -/
theorem parseSettings_spec :
    (∀ b : Bool, parseSettings (.bool b) = .obj ⟨some true, some true, some false⟩)
    ∧ (∀ o : ObjSettings, parseSettings (.obj o) = .obj o) :=
  ⟨fun _ => rfl, fun _ => rfl⟩

/-- C5: with `onlyTrimmed` falsy and the header's dimension enabled,
`onAfterGetHeader` sets the `title` attribute to exactly the inner label's
text content and changes nothing else on the element. -/
theorem title_roundTrips_label_text (index : Nat) (s : ObjSettings) (th : TH)
    (happ : ((th.isColHeader && truthy s.columns) || (!th.isColHeader && truthy s.rows)) = true)
    (htrim : truthy s.onlyTrimmed = false) :
    onAfterGetHeader index s th = { th with title := some th.innerSpan.textContent } := by
  simp [onAfterGetHeader, happ, htrim]

/-- C5 witness: a column header labelled "Revenue" under
`{rows: true, columns: true, onlyTrimmed: false}` gets `title = "Revenue"`. -/
theorem title_roundTrips_label_text_witness :
    onAfterGetHeader 0 ⟨some true, some true, some false⟩
        ⟨⟨"Revenue", 30⟩, true, 0, none⟩
      = { (⟨⟨"Revenue", 30⟩, true, 0, none⟩ : TH) with title := some "Revenue" } :=
  title_roundTrips_label_text 0 ⟨some true, some true, some false⟩
    ⟨⟨"Revenue", 30⟩, true, 0, none⟩ rfl rfl

/-- C6: when the header's dimension is not enabled (column header with
falsy `columns`, or row header with falsy `rows`), `onAfterGetHeader`
returns the element exactly as received: no attribute set, none removed. -/
theorem header_untouched_when_dimension_disabled (index : Nat) (s : ObjSettings) (th : TH)
    (happ : ((th.isColHeader && truthy s.columns) || (!th.isColHeader && truthy s.rows)) = false) :
    onAfterGetHeader index s th = th := by
  simp [onAfterGetHeader, happ]

/-- C6 witness: a column header rendered while `columns = false` is left
exactly as received. -/
theorem header_untouched_when_dimension_disabled_witness :
    onAfterGetHeader 2 ⟨some true, some false, some false⟩ ⟨⟨"2024", 80⟩, true, 0, none⟩
      = ⟨⟨"2024", 80⟩, true, 0, none⟩ :=
  header_untouched_when_dimension_disabled 2 ⟨some true, some false, some false⟩
    ⟨⟨"2024", 80⟩, true, 0, none⟩ rfl

/-- C8: `onAfterGetHeader` never removes or clears the `title` attribute:
on every call it either returns the element unchanged or overwrites the
attribute with the inner label's text content. -/
theorem onAfterGetHeader_never_clears_title (index : Nat) (s : ObjSettings) (th : TH) :
    onAfterGetHeader index s th = th
    ∨ onAfterGetHeader index s th = { th with title := some th.innerSpan.textContent } := by
  by_cases h1 : ((th.isColHeader && truthy s.columns) || (!th.isColHeader && truthy s.rows)) = true
  · by_cases h2 : truthy s.onlyTrimmed = true
    · by_cases h3 : th.innerSpan.outerWidth ≥ 50 ∧ th.innerSpan.outerWidth ≠ 0
      · right; simp [onAfterGetHeader, h1, h2, h3]
      · left; simp [onAfterGetHeader, h1, h2, h3]
    · right; simp [onAfterGetHeader, h1, h2]
  · left; simp [onAfterGetHeader, h1]

/-- C1: with `onlyTrimmed` truthy and the header's dimension applicable, on
a header carrying no `title` attribute yet, `onAfterGetHeader` sets the
attribute (to the label text) iff the measured inner-label width is ≥ 50
and nonzero; and the header cell's own width is never measured: varying
the `outerWidth` of the `TH` itself only varies that field of the result. -/
theorem onlyTrimmed_sets_title_iff_innerWidth (index : Nat) (s : ObjSettings) (th : TH)
    (happ : ((th.isColHeader && truthy s.columns) || (!th.isColHeader && truthy s.rows)) = true)
    (htrim : truthy s.onlyTrimmed = true)
    (hfresh : th.title = none) :
    ((onAfterGetHeader index s th).title = some th.innerSpan.textContent
        ↔ (th.innerSpan.outerWidth ≥ 50 ∧ th.innerSpan.outerWidth ≠ 0))
    ∧ ∀ w : Nat, onAfterGetHeader index s { th with outerWidth := w }
        = { onAfterGetHeader index s th with outerWidth := w } := by
  constructor
  · by_cases h3 : th.innerSpan.outerWidth ≥ 50 ∧ th.innerSpan.outerWidth ≠ 0
    · simp [onAfterGetHeader, happ, htrim, h3]
    · simp [onAfterGetHeader, happ, htrim, h3, hfresh]
  · intro w
    by_cases h3 : th.innerSpan.outerWidth ≥ 50 ∧ th.innerSpan.outerWidth ≠ 0
    · simp [onAfterGetHeader, happ, htrim, h3]
    · simp [onAfterGetHeader, happ, htrim, h3]

/-- Settings with every dimension on and `onlyTrimmed` on, for witnesses. -/
def sTrimmed : ObjSettings := ⟨some true, some true, some true⟩

/-- A fresh column header labelled "AB" whose inner label measures 50. -/
def thAB : TH := ⟨⟨"AB", 50⟩, true, 0, none⟩

/-- C1 witness: at inner width exactly 50 the attribute is set, and the
result is independent of the `TH`'s own width. -/
theorem onlyTrimmed_sets_title_iff_innerWidth_witness :
    ((onAfterGetHeader 0 sTrimmed thAB).title = some thAB.innerSpan.textContent
        ↔ (thAB.innerSpan.outerWidth ≥ 50 ∧ thAB.innerSpan.outerWidth ≠ 0))
    ∧ ∀ w : Nat, onAfterGetHeader 0 sTrimmed { thAB with outerWidth := w }
        = { onAfterGetHeader 0 sTrimmed thAB with outerWidth := w } :=
  onlyTrimmed_sets_title_iff_innerWidth 0 sTrimmed thAB rfl rfl rfl

/-- C9: over the non-negative widths `outerWidth` can return, the guard
`textWidth ≥ 50 ∧ textWidth ≠ 0` coincides with `textWidth ≥ 50`, so the
decision logic is extensionally equal to the variant using only the
`≥ 50` comparison. -/
theorem onlyTrimmed_guard_zero_check_redundant (index : Nat) (s : ObjSettings) (th : TH) :
    onAfterGetHeader index s th = onAfterGetHeaderSpecGuard index s th := by
  by_cases h1 : ((th.isColHeader && truthy s.columns) || (!th.isColHeader && truthy s.rows)) = true
  · by_cases h2 : truthy s.onlyTrimmed = true
    · by_cases h3 : th.innerSpan.outerWidth ≥ 50
      · have h4 : th.innerSpan.outerWidth ≠ 0 := by omega
        simp [onAfterGetHeader, onAfterGetHeaderSpecGuard, h1, h2, h3, h4]
      · simp [onAfterGetHeader, onAfterGetHeaderSpecGuard, h1, h2, h3]
    · simp [onAfterGetHeader, onAfterGetHeaderSpecGuard, h1, h2]
  · simp [onAfterGetHeader, onAfterGetHeaderSpecGuard, h1]

/-! ## Header surfaces and the cleanup traversal -/

/-- One header row (`<tr>`): the `childNodes` of one level, left to right. -/
abbrev HeaderRow := List TH

/-- One header surface (`THEAD`): its `childNodes`, one row per level. -/
abbrev THead := List HeaderRow

/-- The parts of `this.hot.view` that `clearTitleAttributes` dereferences:
the length of the `columnHeaders` setting, the main table `THEAD`, the top
overlay clone's `THEAD` (`none` models a missing `topOverlay`, whose
unconditional dereference on source line 108 would throw), and the optional
top-left corner overlay's `THEAD` (guarded on lines 109-110). -/
structure HotView where
  columnHeadersLen : Nat
  mainHeaders : THead
  topOverlay : Option THead
  topLeftCorner : Option THead
deriving DecidableEq

/-- `removeAttribute('title')` on one cell. -/
def clearTitle (th : TH) : TH := { th with title := none }

/-- Remove the title attribute from every cell of a row (the inner loop of
lines 117-118 visits each index of the master row itself). -/
def clearRow (row : HeaderRow) : HeaderRow := row.map clearTitle

/-- Apply `f` to the first `n` entries of a list, leaving later entries
untouched.  This is the effect of a `rangeEach(0, n - 1, ...)` loop that
rewrites position `i` for each `0 ≤ i ≤ n - 1`. -/
def mapBelow {α : Type} (f : α → α) : Nat → List α → List α
  | _, [] => []
  | 0, l => l
  | n + 1, a :: l => f a :: mapBelow f n l

/-- Remove the title attribute from the cells of an overlay row at indices
`j < k` (the guarded accesses of lines 120-126: a cell beyond the overlay
row's own length is skipped, and cells beyond the master row's length `k`
are never visited). -/
def clearCellsBelow (k : Nat) (row : HeaderRow) : HeaderRow := mapBelow clearTitle k row

/-- The effect of the nested loop on an overlay surface: for each level
`i < n`, the overlay row at `i` (if present — a missing overlay row is
skipped by the `topLevel &&` / `topLeftCornerLevel &&` guards) has its
cells cleared at the indices the master row at `i` has.  The case of a
missing MASTER row is irrelevant here: `clearTitleAttributes` has already
thrown before touching the overlay in that case. -/
def clearOverlayRows : Nat → THead → THead → THead
  | 0, _, ov => ov
  | _ + 1, [], ov => ov
  | _ + 1, _ :: _, [] => []
  | n + 1, m :: _ms, o :: os => clearCellsBelow m.length o :: clearOverlayRows n _ms os

/-- `clearTitleAttributes` (source lines 105-129).  Returns `none` when the
JS would throw a `TypeError`: either the top overlay is missing (line 108
dereferences `topOverlay.clone` unconditionally) or some level
`i < headerLevels` has no master row (line 117 dereferences
`masterLevel.childNodes` unconditionally).  Otherwise: the first
`headerLevels` master rows are fully cleared, and the top / corner overlay
rows are cleared in lockstep up to each master row's length. -/
def clearTitleAttributes (v : HotView) : Option HotView :=
  match v.topOverlay with
  | none => none
  | some topHeaders =>
      if v.columnHeadersLen ≤ v.mainHeaders.length then
        some { v with
          mainHeaders := mapBelow clearRow v.columnHeadersLen v.mainHeaders
          topOverlay := some (clearOverlayRows v.columnHeadersLen v.mainHeaders topHeaders)
          topLeftCorner :=
            Option.map (clearOverlayRows v.columnHeadersLen v.mainHeaders) v.topLeftCorner }
      else none

/-! ## Plugin lifecycle -/

/-- The plugin's state: the cached `this.settings` (`none` = `null`), the
`enabled` flag maintained by the base class, a `destroyed` flag modelling
the base class's terminal teardown, and the host view the cleanup walks. -/
structure PluginState where
  settings : Option HTSettings
  enabled : Bool
  destroyed : Bool
  view : HotView
deriving DecidableEq

/-- `enablePlugin` (source lines 59-72): a no-op when already enabled;
otherwise caches the host's `headerTooltips` value, normalises it via
`parseSettings`, registers the two header hooks, and marks the plugin
enabled (the `super.enablePlugin()` call). -/
def enablePlugin (hostSettings : HTSettings) (p : PluginState) : PluginState :=
  if p.enabled then p
  else { p with settings := some (parseSettings hostSettings), enabled := true }

/-- `disablePlugin` (source lines 77-83): null the cached settings, run the
cleanup traversal, then `super.disablePlugin()`, modelled from the spec
(BasePlugin is not under src/) as marking the state disabled.  `none`
propagates a cleanup `TypeError`. -/
def disablePlugin (p : PluginState) : Option PluginState :=
  match clearTitleAttributes p.view with
  | none => none
  | some v' => some { p with settings := none, enabled := false, view := v' }

/-- Modelled from the spec: `BasePlugin#destroy` (src/plugins/_base.js, not
under src/) performs "full teardown (equivalent to disable plus any
additional host-side unregistration)"; the extra host-side unregistration
is the terminal `destroyed` flag. -/
def basePluginDestroy (p : PluginState) : Option PluginState :=
  (disablePlugin p).map fun q => { q with destroyed := true }

/-- `destroy` (source lines 167-171): `this.settings = null` followed by
`super.destroy()`. -/
def destroy (p : PluginState) : Option PluginState :=
  basePluginDestroy { p with settings := none }

/-! ## Helper lemmas -/

theorem mapBelow_nil {α : Type} (f : α → α) (n : Nat) : mapBelow f n [] = [] := by
  cases n <;> rfl

theorem mapBelow_zero {α : Type} (f : α → α) (l : List α) : mapBelow f 0 l = l := by
  cases l <;> rfl

theorem mapBelow_length {α : Type} (f : α → α) (n : Nat) (l : List α) :
    (mapBelow f n l).length = l.length := by
  induction l generalizing n with
  | nil => simp [mapBelow_nil]
  | cons a l ih =>
      cases n with
      | zero => simp [mapBelow_zero]
      | succ n => simp [mapBelow, ih n]

theorem getElem?_mapBelow_lt {α : Type} (f : α → α) (n i : Nat) (l : List α) (h : i < n) :
    (mapBelow f n l)[i]? = (l[i]?).map f := by
  induction l generalizing n i with
  | nil => simp [mapBelow_nil]
  | cons a l ih =>
      cases n with
      | zero => omega
      | succ n =>
          cases i with
          | zero => simp [mapBelow]
          | succ i => simpa [mapBelow] using ih n i (by omega)

theorem mapBelow_idem {α : Type} (f : α → α) (hf : ∀ a, f (f a) = f a) (n : Nat) (l : List α) :
    mapBelow f n (mapBelow f n l) = mapBelow f n l := by
  induction l generalizing n with
  | nil => simp [mapBelow_nil]
  | cons a l ih =>
      cases n with
      | zero => simp [mapBelow_zero]
      | succ n => simp [mapBelow, hf, ih n]

theorem clearTitle_clearTitle (th : TH) : clearTitle (clearTitle th) = clearTitle th := rfl

theorem clearRow_length (r : HeaderRow) : (clearRow r).length = r.length := by
  simp [clearRow]

theorem clearRow_clearRow (r : HeaderRow) : clearRow (clearRow r) = clearRow r := by
  induction r with
  | nil => rfl
  | cons th r ih =>
      show clearTitle (clearTitle th) :: clearRow (clearRow r) = clearTitle th :: clearRow r
      rw [clearTitle_clearTitle, ih]

theorem mem_clearRow_title (row : HeaderRow) (th : TH) (h : th ∈ clearRow row) :
    th.title = none := by
  rcases List.mem_map.mp h with ⟨a, _, rfl⟩
  rfl

theorem clearCellsBelow_idem (k : Nat) (row : HeaderRow) :
    clearCellsBelow k (clearCellsBelow k row) = clearCellsBelow k row :=
  mapBelow_idem clearTitle clearTitle_clearTitle k row

theorem title_clearCellsBelow (k j : Nat) (row : HeaderRow) (th : TH)
    (hj : j < k) (hth : (clearCellsBelow k row)[j]? = some th) : th.title = none := by
  rw [clearCellsBelow, getElem?_mapBelow_lt clearTitle k j row hj] at hth
  rcases hrow : row[j]? with _ | a
  · rw [hrow] at hth; simp at hth
  · rw [hrow] at hth
    simp at hth
    rw [← hth]
    rfl

/-- Length of row `i` of the master surface (`masterLevel.childNodes.length`,
source line 117) read through the optional index. -/
def masterLen (main : THead) (i : Nat) : Nat := ((main[i]?).getD []).length

/-- Every cell of `row` at an index below `k` carries no title attribute. -/
def clearedBelow (k : Nat) (row : HeaderRow) : Prop :=
  ∀ j, j < k → ∀ th, row[j]? = some th → th.title = none

/-- Every overlay row at a level below `n` is title-free at all indices the
master row of that level has. -/
def surfaceClearedAgainst (n : Nat) (main s : THead) : Prop :=
  ∀ i, i < n → ∀ row, s[i]? = some row → clearedBelow (masterLen main i) row

theorem getElem?_clearOverlayRows_lt :
    ∀ (n i : Nat) (main ov : THead), i < n →
      (clearOverlayRows n main ov)[i]? = (ov[i]?).map (clearCellsBelow (masterLen main i))
  | 0, i, _, _, h => absurd h (by omega)
  | n + 1, i, [], ov, h => by
      cases hov : ov[i]? <;>
        simp [clearOverlayRows, hov, masterLen, clearCellsBelow, mapBelow_zero]
  | n + 1, i, m :: ms, [], h => by simp [clearOverlayRows]
  | n + 1, 0, m :: ms, o :: os, h => by simp [clearOverlayRows, masterLen]
  | n + 1, i + 1, m :: ms, o :: os, h => by
      simpa [clearOverlayRows, masterLen] using
        getElem?_clearOverlayRows_lt n i ms os (by omega)

theorem clearOverlayRows_cleared (n : Nat) (main ov : THead) :
    surfaceClearedAgainst n main (clearOverlayRows n main ov) := by
  intro i hi row hrow j hj th hth
  rw [getElem?_clearOverlayRows_lt n i main ov hi] at hrow
  rcases hov : ov[i]? with _ | r
  · rw [hov] at hrow; simp at hrow
  · rw [hov] at hrow
    simp at hrow
    rw [← hrow] at hth
    exact title_clearCellsBelow _ j _ th hj hth

theorem mapBelow_clearRow_cleared (n : Nat) (main : THead) (i : Nat) (hi : i < n)
    (row : HeaderRow) (hrow : (mapBelow clearRow n main)[i]? = some row) :
    ∀ th ∈ row, th.title = none := by
  rw [getElem?_mapBelow_lt clearRow n i main hi] at hrow
  rcases hm : main[i]? with _ | r
  · rw [hm] at hrow; simp at hrow
  · rw [hm] at hrow
    simp at hrow
    intro th hth
    rw [← hrow] at hth
    exact mem_clearRow_title r th hth

theorem clearOverlayRows_idem :
    ∀ (n : Nat) (main ov : THead),
      clearOverlayRows n (mapBelow clearRow n main) (clearOverlayRows n main ov)
        = clearOverlayRows n main ov
  | 0, main, ov => rfl
  | n + 1, [], ov => by simp [mapBelow_nil, clearOverlayRows]
  | n + 1, m :: ms, [] => by simp [mapBelow, clearOverlayRows]
  | n + 1, m :: ms, o :: os => by
      show clearCellsBelow (clearRow m).length (clearCellsBelow m.length o)
            :: clearOverlayRows n (mapBelow clearRow n ms) (clearOverlayRows n ms os)
          = clearCellsBelow m.length o :: clearOverlayRows n ms os
      rw [clearRow_length, clearCellsBelow_idem, clearOverlayRows_idem n ms os]

theorem clearTitleAttributes_eq_some (v : HotView) (t : THead)
    (hTop : v.topOverlay = some t) (hLen : v.columnHeadersLen ≤ v.mainHeaders.length) :
    clearTitleAttributes v = some { v with
      mainHeaders := mapBelow clearRow v.columnHeadersLen v.mainHeaders
      topOverlay := some (clearOverlayRows v.columnHeadersLen v.mainHeaders t)
      topLeftCorner :=
        Option.map (clearOverlayRows v.columnHeadersLen v.mainHeaders) v.topLeftCorner } := by
  unfold clearTitleAttributes
  rw [hTop]
  simp [hLen]

theorem clearTitleAttributes_some (v v' : HotView) (h : clearTitleAttributes v = some v') :
    v'.columnHeadersLen = v.columnHeadersLen
    ∧ v'.mainHeaders = mapBelow clearRow v.columnHeadersLen v.mainHeaders
    ∧ (∃ t, v.topOverlay = some t
        ∧ v'.topOverlay = some (clearOverlayRows v.columnHeadersLen v.mainHeaders t))
    ∧ v'.topLeftCorner
        = Option.map (clearOverlayRows v.columnHeadersLen v.mainHeaders) v.topLeftCorner
    ∧ v.columnHeadersLen ≤ v.mainHeaders.length := by
  unfold clearTitleAttributes at h
  rcases hm : v.topOverlay with _ | t
  · rw [hm] at h; exact Option.noConfusion h
  · rw [hm] at h
    by_cases hLen : v.columnHeadersLen ≤ v.mainHeaders.length
    · simp only [hLen, if_true] at h
      injection h with h
      subst h
      exact ⟨rfl, rfl, ⟨t, rfl, rfl⟩, rfl, hLen⟩
    · simp [hLen] at h

theorem clearTitleAttributes_idem (v v' : HotView) (h : clearTitleAttributes v = some v') :
    clearTitleAttributes v' = some v' := by
  obtain ⟨hn, hmain, ⟨t, hTop, hTop'⟩, hcorner, hLen⟩ := clearTitleAttributes_some v v' h
  have hLen' : v'.columnHeadersLen ≤ v'.mainHeaders.length := by
    rw [hn, hmain, mapBelow_length]; exact hLen
  rw [clearTitleAttributes_eq_some v' (clearOverlayRows v.columnHeadersLen v.mainHeaders t)
    hTop' hLen']
  obtain ⟨n', main', top', corner'⟩ := v'
  simp only at hn hmain hTop' hcorner
  subst hn hmain hTop' hcorner
  cases hc : v.topLeftCorner with
  | none =>
      simp [hc, mapBelow_idem clearRow clearRow_clearRow, clearOverlayRows_idem]
  | some c =>
      simp [hc, mapBelow_idem clearRow clearRow_clearRow, clearOverlayRows_idem]

theorem disablePlugin_eq (p : PluginState) (v' : HotView)
    (h : clearTitleAttributes p.view = some v') :
    disablePlugin p = some { p with settings := none, enabled := false, view := v' } := by
  unfold disablePlugin
  rw [h]

theorem disablePlugin_some (p p' : PluginState) (h : disablePlugin p = some p') :
    ∃ v', clearTitleAttributes p.view = some v'
      ∧ p' = { p with settings := none, enabled := false, view := v' } := by
  unfold disablePlugin at h
  cases hcl : clearTitleAttributes p.view with
  | none => rw [hcl] at h; exact Option.noConfusion h
  | some v' =>
      rw [hcl] at h
      injection h with h
      exact ⟨v', rfl, h.symm⟩

/-! ## Claims about the cleanup traversal and the lifecycle -/

/-- A header cell already carrying a title attribute. -/
def thTitled : TH := ⟨⟨"A", 60⟩, true, 0, some "A"⟩

/-- A view whose top overlay is absent. -/
def viewNoTopOverlay : HotView := ⟨1, [[thTitled]], none, none⟩

/-- A view with two configured header levels but only one main-surface row. -/
def viewShortMain : HotView := ⟨2, [[thTitled]], some [[thTitled]], none⟩

/-- C2 counterexample: the claim says any missing surface or missing row at
a level is skipped without raising an error, but the code dereferences the
top overlay unconditionally (line 108) and each master row unconditionally
(line 117): with the top overlay absent, or with fewer main-surface rows
than configured levels, `clearTitleAttributes` throws (modelled `none`)
instead of skipping. -/
theorem clearTitleAttributes_error_counterexample :
    clearTitleAttributes viewNoTopOverlay = none
      ∧ clearTitleAttributes viewShortMain = none := ⟨rfl, rfl⟩

/-- C2 (amended): provided the top overlay surface is present and the main
surface has a row for every configured level, the cleanup removes the title
attribute from every main-surface cell at every level, and from every top-
and corner-overlay cell at matching (level, index) positions; a missing
corner surface, a missing overlay row at some level, and a missing overlay
cell at some index are all skipped without error (the result is `some` for
every such combination). -/
theorem clearTitleAttributes_clears_and_skips (v : HotView) (t : THead)
    (hTop : v.topOverlay = some t)
    (hLen : v.columnHeadersLen ≤ v.mainHeaders.length) :
    ∃ v', clearTitleAttributes v = some v'
      ∧ (∀ i, i < v.columnHeadersLen → ∀ row, v'.mainHeaders[i]? = some row →
          ∀ th ∈ row, th.title = none)
      ∧ (∀ t', v'.topOverlay = some t' →
          surfaceClearedAgainst v.columnHeadersLen v.mainHeaders t')
      ∧ (v.topLeftCorner = none → v'.topLeftCorner = none)
      ∧ (∀ c, v.topLeftCorner = some c →
          ∃ c', v'.topLeftCorner = some c'
            ∧ surfaceClearedAgainst v.columnHeadersLen v.mainHeaders c') := by
  refine ⟨_, clearTitleAttributes_eq_some v t hTop hLen, ?_, ?_, ?_, ?_⟩
  · intro i hi row hrow th hth
    exact mapBelow_clearRow_cleared _ _ i hi row hrow th hth
  · intro t' ht'
    have ht2 : clearOverlayRows v.columnHeadersLen v.mainHeaders t = t' :=
      Option.some.inj ht'
    subst ht2
    exact clearOverlayRows_cleared _ _ _
  · intro hc
    show Option.map (clearOverlayRows v.columnHeadersLen v.mainHeaders) v.topLeftCorner = none
    rw [hc]
    rfl
  · intro c hc
    refine ⟨clearOverlayRows v.columnHeadersLen v.mainHeaders c, ?_,
      clearOverlayRows_cleared _ _ _⟩
    show Option.map (clearOverlayRows v.columnHeadersLen v.mainHeaders) v.topLeftCorner
        = some (clearOverlayRows v.columnHeadersLen v.mainHeaders c)
    rw [hc]
    rfl

/-- A view with two levels, a full main surface, a top overlay that is
missing its second row and whose first row is longer than the master row,
and no corner overlay. -/
def viewRagged : HotView :=
  ⟨2, [[thTitled, thTitled], [thTitled]], some [[thTitled, thTitled, thTitled]], none⟩

/-- C2 witness: the amended theorem applied to `viewRagged` — the short
overlay (one row of three cells against two master rows of two and one
cells) and the absent corner are skipped without error. -/
theorem clearTitleAttributes_clears_and_skips_witness :
    ∃ v', clearTitleAttributes viewRagged = some v'
      ∧ (∀ i, i < viewRagged.columnHeadersLen → ∀ row, v'.mainHeaders[i]? = some row →
          ∀ th ∈ row, th.title = none)
      ∧ (∀ t', v'.topOverlay = some t' →
          surfaceClearedAgainst viewRagged.columnHeadersLen viewRagged.mainHeaders t')
      ∧ (viewRagged.topLeftCorner = none → v'.topLeftCorner = none)
      ∧ (∀ c, viewRagged.topLeftCorner = some c →
          ∃ c', v'.topLeftCorner = some c'
            ∧ surfaceClearedAgainst viewRagged.columnHeadersLen viewRagged.mainHeaders c') :=
  clearTitleAttributes_clears_and_skips viewRagged [[thTitled, thTitled, thTitled]]
    rfl (by decide)

/-- C7: if one `disablePlugin` call succeeds, then calling it again on the
result is a no-op returning the very same state (settings absent, plugin
disabled, view unchanged), and calling `disablePlugin` on the never-enabled
variant of the same state (no cached settings, not enabled) produces that
same final state — disable is idempotent and safe without a prior enable. -/
theorem disablePlugin_idempotent_and_safe (p p' : PluginState)
    (h : disablePlugin p = some p') :
    disablePlugin p' = some p'
    ∧ p'.settings = none
    ∧ p'.enabled = false
    ∧ disablePlugin { p with settings := none, enabled := false } = some p' := by
  obtain ⟨v', hcl, rfl⟩ := disablePlugin_some p p' h
  have hidem := clearTitleAttributes_idem p.view v' hcl
  exact ⟨disablePlugin_eq _ v' hidem, rfl, rfl, disablePlugin_eq _ v' hcl⟩

/-- The same header cell with its title attribute removed. -/
def thClearedA : TH := ⟨⟨"A", 60⟩, true, 0, none⟩

/-- An enabled plugin state over a small fully-populated view. -/
def pEnabled : PluginState :=
  ⟨some (.obj ⟨some true, some false, some false⟩), true, false,
    ⟨1, [[thTitled]], some [[thTitled]], some [[thTitled]]⟩⟩

/-- The state after disabling `pEnabled`: settings dropped, disabled, every
surface's cell stripped of its title. -/
def pDisabled : PluginState :=
  ⟨none, false, false, ⟨1, [[thClearedA]], some [[thClearedA]], some [[thClearedA]]⟩⟩

/-- C7 witness: disabling `pEnabled` yields `pDisabled`, and disabling
again — or disabling the never-enabled variant — yields the same state. -/
theorem disablePlugin_idempotent_and_safe_witness :
    disablePlugin pDisabled = some pDisabled
    ∧ pDisabled.settings = none
    ∧ pDisabled.enabled = false
    ∧ disablePlugin { pEnabled with settings := none, enabled := false } = some pDisabled :=
  disablePlugin_idempotent_and_safe pEnabled pDisabled rfl

/-- C10: whatever the cached settings were (or whether any were cached at
all), a successful `disablePlugin` transforms the view by exactly the
settings-blind `clearTitleAttributes`: the same final state results under
any other settings value, and every visited main-surface cell loses its
title attribute whether or not this plugin's decision logic could ever
have set it. -/
theorem cleanup_strips_titles_independent_of_settings
    (s : Option HTSettings) (e d : Bool) (v : HotView) (p' : PluginState)
    (h : disablePlugin ⟨s, e, d, v⟩ = some p') :
    clearTitleAttributes v = some p'.view
    ∧ (∀ (s2 : Option HTSettings) (e2 : Bool), disablePlugin ⟨s2, e2, d, v⟩ = some p')
    ∧ (∀ i, i < v.columnHeadersLen → ∀ row, p'.view.mainHeaders[i]? = some row →
        ∀ th ∈ row, th.title = none) := by
  obtain ⟨v', hcl, rfl⟩ := disablePlugin_some _ p' h
  obtain ⟨-, hmain, -, -, -⟩ := clearTitleAttributes_some v v' hcl
  refine ⟨hcl, fun s2 e2 => disablePlugin_eq _ v' hcl, ?_⟩
  intro i hi row hrow th hth
  have hrow2 : (mapBelow clearRow v.columnHeadersLen v.mainHeaders)[i]? = some row := by
    rw [← hmain]; exact hrow
  exact mapBelow_clearRow_cleared _ _ i hi row hrow2 th hth

/-- A state whose settings disable column headers entirely, yet whose view
carries a title (set by foreign code) on a column header cell. -/
def pForeignTitle : PluginState :=
  ⟨some (.obj ⟨some false, some false, some false⟩), true, false,
    ⟨1, [[thTitled]], some [[thTitled]], none⟩⟩

/-- C10 witness: disabling `pForeignTitle` strips the foreign title from the
main surface even though `columns = false` means this plugin never set it,
and any other settings value produces the same final state. -/
theorem cleanup_strips_titles_independent_of_settings_witness :
    clearTitleAttributes pForeignTitle.view
        = some (⟨1, [[thClearedA]], some [[thClearedA]], none⟩ : HotView)
    ∧ (∀ (s2 : Option HTSettings) (e2 : Bool),
        disablePlugin ⟨s2, e2, false, pForeignTitle.view⟩
          = some ⟨none, false, false, ⟨1, [[thClearedA]], some [[thClearedA]], none⟩⟩)
    ∧ (∀ i, i < pForeignTitle.view.columnHeadersLen →
        ∀ row, (⟨1, [[thClearedA]], some [[thClearedA]], none⟩ : HotView).mainHeaders[i]?
            = some row →
          ∀ th ∈ row, th.title = none) :=
  cleanup_strips_titles_independent_of_settings
    pForeignTitle.settings pForeignTitle.enabled false pForeignTitle.view
    ⟨none, false, false, ⟨1, [[thClearedA]], some [[thClearedA]], none⟩⟩ rfl

/-- C3: `destroy` drops the cached settings and performs the cleanup
traversal: a successful `destroy` is exactly a successful `disablePlugin`
(attribute stripping included) followed by the host-side terminal
teardown. -/
theorem destroy_drops_settings_and_clears (p p' : PluginState) (h : destroy p = some p') :
    p'.settings = none
    ∧ clearTitleAttributes p.view = some p'.view
    ∧ (∃ q, disablePlugin p = some q ∧ p' = { q with destroyed := true }) := by
  unfold destroy basePluginDestroy at h
  cases hd : disablePlugin { p with settings := none } with
  | none => rw [hd] at h; exact Option.noConfusion h
  | some q =>
      rw [hd] at h
      injection h with h
      subst h
      obtain ⟨v', hcl, rfl⟩ := disablePlugin_some _ q hd
      exact ⟨rfl, hcl, ⟨_, disablePlugin_eq p v' hcl, rfl⟩⟩

/-- C3 witness: destroying `pEnabled` drops the settings, strips the titles
on every surface, and equals disable followed by the terminal teardown. -/
theorem destroy_drops_settings_and_clears_witness :
    ({ pDisabled with destroyed := true } : PluginState).settings = none
    ∧ clearTitleAttributes pEnabled.view
        = some ({ pDisabled with destroyed := true } : PluginState).view
    ∧ (∃ q, disablePlugin pEnabled = some q
        ∧ ({ pDisabled with destroyed := true } : PluginState)
            = { q with destroyed := true }) :=
  destroy_drops_settings_and_clears pEnabled { pDisabled with destroyed := true } rfl
